import Mathlib

/-!
Shallow embedding of the Carely per-tenant RAG core
(`Carely/customer_facing_agent/Customer_Agent.py`, class `CustomerSupportAgent`).

MongoDB collections are modelled as lists of records; the per-tenant Chroma
persist directory is modelled as a map from a tenant id to the optional list
of chunk texts stored in that directory.  ObjectId generation is modelled by
a counter `nextId` in the database state: each fresh id is distinct from all
previously generated ids, which is the only property of ObjectId the code
relies on.  External collaborators (PDF loader, text splitter, embedding
model, Chroma build, reranker, LLM) are parameters of an `Env` record; a
collaborator that can raise is modelled by a Boolean failure flag plus the
message of the raised exception.
-/

/-- A row of the `Company_Documents` collection, with the fields the agent
reads and writes.  `recId` models the Mongo `_id` assigned at insertion. -/
structure DocRecord where
  recId : Nat
  company_id : Nat
  file_path : String
  file_name : String
  processing_status : String
  error_message : Option String
  total_pages : Option Nat
  total_chunks : Option Nat
  chunk_size : Option Nat
  chunk_overlap : Option Nat
deriving Repr, DecidableEq

/-- A row of the `Company_Embeddings` collection (one chunk).  In the source
the `document_id` field is stored as the string form of an ObjectId; here it
is the id itself. -/
structure EmbRecord where
  company_id : Nat
  document_id : Nat
  chunk_index : Nat
  chunk_text : String
deriving Repr, DecidableEq

/-- A row of the `Company_Conversations` collection. -/
structure ConvRecord where
  company_id : Nat
  history : List (String × String)
deriving Repr, DecidableEq

/-- Durable state: the three Mongo collections, the per-tenant Chroma
persist directories (`some texts` = directory exists holding those chunk
texts), and the ObjectId generator. -/
structure DB where
  documents : List DocRecord
  embeddings : List EmbRecord
  conversations : List ConvRecord
  chroma : Nat → Option (List String)
  nextId : Nat

/-- In-memory state of one `CustomerSupportAgent` instance.  `fallback`
records whether `_setup_retriever` fell back to the plain similarity
retriever (k=5) because building the cross-encoder reranker raised. -/
structure Agent where
  company_id : Nat
  conversation_history : List (String × String)
  response_times : List Nat
  vector_store : Bool
  rag_chain : Bool
  fallback : Bool
deriving Repr, DecidableEq

/-- External collaborators and their failure modes. -/
structure Env where
  pages : String → List String
  loadFails : String → Bool
  loadMsg : String → String
  split : Nat → Nat → List String → List String
  chromaBuildFails : Bool
  chromaMsg : String
  mongoInsertFails : Bool
  rerankerSetupFails : Bool
  rerankQueryFails : Bool
  rerank : String → List String → List String
  simOrder : String → List String → List String
  llmFails : Bool
  llmMsg : String
  llm : String → String
  ragInitFails : Bool
  ragMsg : String
  respTime : Nat

/-- Python `l[-n:]`. -/
def lastN (n : Nat) (l : List α) : List α := l.drop (l.length - n)

/-- Mongo `update_one` semantics: rewrite the first record matching `p`. -/
def updateFirst (p : α → Bool) (f : α → α) : List α → List α
  | [] => []
  | x :: xs => if p x then f x :: xs else x :: updateFirst p f xs

/-- Characters of the suffix after the last path separator. -/
def baseNameChars : List Char → List Char → List Char
  | [], acc => acc.reverse
  | ch :: rest, acc =>
    if ch = '/' then baseNameChars rest [] else baseNameChars rest (ch :: acc)

/-- `os.path.basename`: the part of the path after the last `/`. -/
def baseName (p : String) : String := String.mk (baseNameChars p.data [])

/-- The filter `{"company_id": c, "file_path": path}` used by the upload
path on `Company_Documents`. -/
def docKey (c : Nat) (path : String) (d : DocRecord) : Bool :=
  d.company_id == c && d.file_path == path

/-- Mongo `update_one(filter, set, upsert=True)` on `Company_Documents`
keyed by `(company_id, file_path)`: rewrite the first matching record with
`f`, or append a fresh record `mk _id` consuming one generated id. -/
def upsertDocByPath (db : DB) (c : Nat) (path : String)
    (f : DocRecord → DocRecord) (mk : Nat → DocRecord) : DB :=
  if db.documents.any (docKey c path) then
    { db with documents := updateFirst (docKey c path) f db.documents }
  else
    { db with documents := db.documents ++ [mk db.nextId],
              nextId := db.nextId + 1 }

/-- The initial `processing` upsert done by `upload_file` before any heavy
work (source lines 269-282). -/
def processingUpsert (db : DB) (c : Nat) (path : String) : DB :=
  upsertDocByPath db c path
    (fun d => { d with file_name := baseName path,
                       processing_status := ("processing") })
    (fun i => { recId := i, company_id := c, file_path := path,
                file_name := baseName path,
                processing_status := ("processing"),
                error_message := none, total_pages := none,
                total_chunks := none, chunk_size := none,
                chunk_overlap := none })

/-- The `failed` upsert done by the `except` handler of `upload_file`
(source lines 361-374). -/
def failedUpsert (db : DB) (c : Nat) (path : String) (msg : String) : DB :=
  upsertDocByPath db c path
    (fun d => { d with file_name := baseName path,
                       processing_status := ("failed"),
                       error_message := some msg })
    (fun i => { recId := i, company_id := c, file_path := path,
                file_name := baseName path,
                processing_status := ("failed"),
                error_message := some msg, total_pages := none,
                total_chunks := none, chunk_size := none,
                chunk_overlap := none })

/-- Error message written when the loader returns no pages
(source line 304). -/
def noContentMsg : String := "No content found in PDF file"

/-- The `failed` update (no upsert) in the empty-PDF branch of
`upload_file` (source lines 299-308). -/
def noContentUpdate (db : DB) (c : Nat) (path : String) : DB :=
  { db with documents :=
      (updateFirst (docKey c path)
        (fun d => { d with processing_status := ("failed"),
                           error_message := some noContentMsg })
        db.documents) }

/-- The completion update of `upload_file` (source lines 336-347). -/
def completedUpdate (db : DB) (c : Nat) (path : String)
    (npages nchunks cs co : Nat) : DB :=
  { db with documents :=
      (updateFirst (docKey c path)
        (fun d => { d with total_pages := some npages,
                           total_chunks := some nchunks,
                           chunk_size := some cs,
                           chunk_overlap := some co,
                           processing_status := ("completed") })
        db.documents) }

/-- `Chroma.from_documents` with an existing persist directory adds the new
chunks to the tenant directory (creating it if absent). -/
def addChroma (db : DB) (c : Nat) (docs : List String) : DB :=
  { db with chroma := (fun x =>
      if x = c then some (((db.chroma c).getD []) ++ docs)
      else db.chroma x) }

/-- `_store_embeddings_in_mongodb`: batch insert of one chunk row per split
chunk, all carrying the `document_id` generated at the top of
`upload_file` (source lines 196-229). -/
def addEmbeddings (db : DB) (c : Nat) (documentId : Nat)
    (docs : List String) : DB :=
  { db with embeddings := (db.embeddings ++
      docs.enum.map (fun p =>
        { company_id := c, document_id := documentId,
          chunk_index := p.1, chunk_text := p.2 })) }

/-- `CustomerSupportAgent.upload_file` (source lines 234-377).  Returns the
Boolean result together with the updated agent and database.

The fresh `document_id = str(ObjectId())` of line 246 is drawn from the
generator first; if the `processing` upsert later inserts a record, that
record receives the next, distinct id - exactly as two separate calls of
`ObjectId()` yield distinct ids.  All exceptions from collaborators are
routed to the `except` branch (`failedUpsert` + `False`), so the function
is total: no exception escapes. -/
def upload_file (env : Env) (a : Agent) (db : DB) (pdf_path : String)
    (chunk_size chunk_overlap : Nat) : Bool × Agent × DB :=
  let c := a.company_id
  let documentId := db.nextId
  let db0 : DB := { db with nextId := db.nextId + 1 }
  if db.documents.any (docKey c pdf_path) && (db.chroma c).isSome then
    -- already processed and the Chroma directory exists: reload only
    let a1 : Agent := { a with vector_store := true,
                               fallback := env.rerankerSetupFails }
    if env.ragInitFails then
      (false, a1, failedUpsert db0 c pdf_path env.ragMsg)
    else
      (true, { a1 with rag_chain := true }, db0)
  else
    let db1 := processingUpsert db0 c pdf_path
    if env.loadFails pdf_path then
      (false, a, failedUpsert db1 c pdf_path (env.loadMsg pdf_path))
    else
      let pages := env.pages pdf_path
      if pages.isEmpty then
        (false, a, noContentUpdate db1 c pdf_path)
      else
        let docs := env.split chunk_size chunk_overlap pages
        if env.chromaBuildFails || docs.isEmpty then
          (false, a, failedUpsert db1 c pdf_path env.chromaMsg)
        else
          let db2 := addChroma db1 c docs
          let db3 := if env.mongoInsertFails then db2
                     else addEmbeddings db2 c documentId docs
          let db4 := completedUpdate db3 c pdf_path pages.length docs.length
                       chunk_size chunk_overlap
          let a1 : Agent := { a with vector_store := true,
                                     fallback := env.rerankerSetupFails }
          if env.ragInitFails then
            (false, a1, failedUpsert db4 c pdf_path env.ragMsg)
          else
            (true, { a1 with rag_chain := true }, db4)

/-- `format_docs` of the RAG chain. -/
def formatDocs (docs : List String) : String :=
  String.intercalate ("\n\n") docs

/-- `format_conversation_history` of the RAG chain: the last three
exchanges rendered as Q/A lines. -/
def formatHistory (h : List (String × String)) : String :=
  if h.isEmpty then "No previous conversation"
  else String.intercalate ("\n")
    ((lastN 3 h).enum.map (fun p =>
      "Q" ++ toString (p.1 + 1) ++ ": " ++ p.2.1 ++ "\n" ++
      "A" ++ toString (p.1 + 1) ++ ": " ++ p.2.2))

/-- The customer-support prompt template with context, history and
question substituted. -/
def buildPrompt (context : String) (history : String) (question : String) :
    String :=
  "You are a helpful customer support assistant. " ++
  "Use the provided context to answer the customers question " ++
  "accurately and professionally.\n\nContext from business documents:\n" ++
  context ++ "\n\nPrevious conversation:\n" ++ history ++
  "\n\nCustomer Question: " ++ question ++
  "\n\nInstructions:\n- Answer based primarily on the provided context\n" ++
  "- Be friendly, professional, and helpful\n" ++
  "- Keep responses concise but complete\n\nAnswer:"

/-- Retrieval step of the RAG chain: the base retriever returns the top 10
chunks in the vector store similarity order; the reranker keeps its top 5.
The fallback retriever installed when reranker setup failed returns the top
5 of the similarity order directly. -/
def retrieveDocs (env : Env) (a : Agent) (db : DB) (question : String) :
    List String :=
  let contents := (db.chroma a.company_id).getD []
  if a.fallback then
    (env.simOrder question contents).take 5
  else
    (env.rerank question ((env.simOrder question contents).take 10)).take 5

/-- `rag_chain.invoke` raises iff the active reranker raises at query time
or the LLM call fails. -/
def chainRaises (env : Env) (a : Agent) : Bool :=
  (!a.fallback && env.rerankQueryFails) || env.llmFails

/-- The answer text produced by a non-raising `rag_chain.invoke`. -/
def chainOutput (env : Env) (a : Agent) (db : DB) (question : String) :
    String :=
  env.llm (buildPrompt (formatDocs (retrieveDocs env a db question))
    (formatHistory a.conversation_history) question)

/-- `_save_conversation_history`: upsert of the tenant conversation row. -/
def saveConversation (db : DB) (c : Nat)
    (h : List (String × String)) : DB :=
  if db.conversations.any (fun v => v.company_id == c) then
    { db with conversations :=
        (updateFirst (fun v => v.company_id == c)
          (fun v => { v with history := h }) db.conversations) }
  else
    { db with conversations :=
        (db.conversations ++ [{ company_id := c, history := h }]) }

/-- Sentinel returned by `ask_question` when no RAG chain exists
(source line 482). -/
def sentinelNoKB : String :=
  "Please upload a business document first using the upload_file() method."

/-- Opening text of the error answer returned when `rag_chain.invoke` raises
(source line 510). -/
def askErrHead : String :=
  "Sorry, I encountered an error while processing your question: "

/-- `CustomerSupportAgent.ask_question` (source lines 471-512): sentinel
when no chain, apology text when the chain raises, otherwise the answer is
produced, response time and exchange are appended, both lists truncated to
the last 10 when the history exceeds 10, and the history is saved. -/
def ask_question (env : Env) (a : Agent) (db : DB) (question : String) :
    String × Agent × DB :=
  if !a.rag_chain then (sentinelNoKB, a, db)
  else if chainRaises env a then (askErrHead ++ env.llmMsg, a, db)
  else
    let response := chainOutput env a db question
    let times1 := a.response_times ++ [env.respTime]
    let hist1 := a.conversation_history ++ [(question, response)]
    let hist2 := if hist1.length > 10 then lastN 10 hist1 else hist1
    let times2 := if hist1.length > 10 then lastN 10 times1 else times1
    let a1 : Agent := { a with conversation_history := hist2,
                               response_times := times2 }
    (response, a1, saveConversation db a.company_id hist2)

/-- A sequence of `ask_question` calls, threading agent and database. -/
def askMany (env : Env) (qs : List String) (a : Agent) (db : DB) :
    Agent × DB :=
  match qs with
  | [] => (a, db)
  | q :: rest =>
    let r := ask_question env a db q
    askMany env rest r.2.1 r.2.2

/-- The question/answer pairs produced along a sequence of
`ask_question` calls. -/
def askTranscript (env : Env) (qs : List String) (a : Agent) (db : DB) :
    List (String × String) :=
  match qs with
  | [] => []
  | q :: rest =>
    let r := ask_question env a db q
    (q, r.1) :: askTranscript env rest r.2.1 r.2.2

/-- View returned by `get_company_documents` for one record. -/
structure DocView where
  file_name : String
  status : String
  total_pages : Nat
  total_chunks : Nat
deriving Repr, DecidableEq

/-- Projection of a document record to its listed view. -/
def docViewOf (d : DocRecord) : DocView :=
  { file_name := d.file_name, status := d.processing_status,
    total_pages := d.total_pages.getD 0,
    total_chunks := d.total_chunks.getD 0 }

/-- `CustomerSupportAgent.get_company_documents` (source lines 567-583). -/
def get_company_documents (a : Agent) (db : DB) : List DocView :=
  (db.documents.filter (fun d => d.company_id == a.company_id)).map docViewOf

/-- Result record of `delete_document`. -/
structure DeleteResult where
  success : Bool
  deleted_documents : Nat
  deleted_embeddings : Nat
deriving Repr, DecidableEq

/-- `CustomerSupportAgent.delete_document` (source lines 638-781).  Finds
the first document record matching `(company_id, file_name)`, deletes the
embeddings whose `document_id` equals the string form of that record Mongo
`_id`, deletes the record, then rebuilds the tenant Chroma directory from
the remaining tenant embeddings (tearing it down when none produce text).
Failures while rebuilding the vector store are swallowed and the call still
reports success. -/
def delete_document (env : Env) (a : Agent) (db : DB) (file_name : String) :
    DeleteResult × Agent × DB :=
  let c := a.company_id
  match db.documents.find?
      (fun d => d.company_id == c && d.file_name == file_name) with
  | none =>
    ({ success := false, deleted_documents := 0, deleted_embeddings := 0 },
     a, db)
  | some record =>
    let docId := record.recId
    let nDel := (db.embeddings.filter
      (fun e => e.company_id == c && e.document_id == docId)).length
    let db1 : DB := { db with embeddings := (db.embeddings.filter
      (fun e => !(e.company_id == c && e.document_id == docId))) }
    let db2 : DB := { db1 with documents := (db1.documents.eraseP
      (fun d => d.company_id == c && d.file_name == file_name)) }
    let remaining := db2.embeddings.filter (fun e => e.company_id == c)
    let res : DeleteResult :=
      { success := true, deleted_documents := 1, deleted_embeddings := nDel }
    if remaining.isEmpty then
      (res, { a with vector_store := false, rag_chain := false },
       { db2 with chroma := (fun x => if x = c then none else db2.chroma x) })
    else
      let texts := remaining.filterMap
        (fun e => if e.chunk_text == "" then none else some e.chunk_text)
      if texts.isEmpty then
        (res, { a with vector_store := false, rag_chain := false },
         { db2 with chroma :=
            (fun x => if x = c then none else db2.chroma x) })
      else if env.chromaBuildFails then
        (res, a,
         { db2 with chroma :=
            (fun x => if x = c then none else db2.chroma x) })
      else
        let a1 : Agent :=
          { a with vector_store := true,
                   fallback := env.rerankerSetupFails,
                   rag_chain := (if env.ragInitFails then a.rag_chain
                                 else true) }
        (res, a1,
         { db2 with chroma :=
            (fun x => if x = c then some texts else db2.chroma x) })

/-- `CustomerSupportAgent.clear_conversation_history`
(source lines 542-547). -/
def clear_conversation_history (a : Agent) (db : DB) : Agent × DB :=
  ({ a with conversation_history := [], response_times := [] },
   saveConversation db a.company_id [])

/-- History loaded by `_load_conversation_history`: the last 10 exchanges
of the tenant conversation row.  Note the response times are not loaded. -/
def loadedHistory (db : DB) (c : Nat) : List (String × String) :=
  match db.conversations.find? (fun v => v.company_id == c) with
  | some v => lastN 10 v.history
  | none => []

/-- Agent construction: `__init__` followed by `_load_existing_data`
(source lines 36-140).  History is loaded only when the tenant already has
document records; when the Chroma directory exists the retriever and the
RAG chain are also set up, and an exception from the chain initialisation
aborts the rest of the load (it is caught by `_load_existing_data`). -/
def mkAgent (env : Env) (c : Nat) (db : DB) : Agent :=
  let base : Agent :=
    { company_id := c, conversation_history := [], response_times := [],
      vector_store := false, rag_chain := false, fallback := false }
  if db.documents.any (fun d => d.company_id == c) then
    if (db.chroma c).isSome then
      if env.ragInitFails then
        { base with vector_store := true,
                    fallback := env.rerankerSetupFails }
      else
        { base with vector_store := true,
                    fallback := env.rerankerSetupFails, rag_chain := true,
                    conversation_history := loadedHistory db c }
    else
      { base with conversation_history := loadedHistory db c }
  else base

/-- Tenant projection of the document collection. -/
def docsFor (db : DB) (c : Nat) : List DocRecord :=
  db.documents.filter (fun d => d.company_id == c)

/-- Tenant projection of the embeddings collection. -/
def embsFor (db : DB) (c : Nat) : List EmbRecord :=
  db.embeddings.filter (fun e => e.company_id == c)

/-- Tenant projection of the conversations collection. -/
def convsFor (db : DB) (c : Nat) : List ConvRecord :=
  db.conversations.filter (fun v => v.company_id == c)

/-- Two database states agree on everything keyed by tenant `c`. -/
def TenantEq (c : Nat) (db db2 : DB) : Prop :=
  docsFor db c = docsFor db2 c ∧ embsFor db c = embsFor db2 c ∧
  convsFor db c = convsFor db2 c ∧ db.chroma c = db2.chroma c

instance (c : Nat) (db db2 : DB) : Decidable (TenantEq c db db2) := by
  unfold TenantEq; infer_instance

/-- First document record for `(company_id, file_path)`. -/
def findDoc (db : DB) (c : Nat) (path : String) : Option DocRecord :=
  db.documents.find? (docKey c path)

/-- Status of the `(company_id, file_path)` record, when present. -/
def docStatus (db : DB) (c : Nat) (path : String) : Option String :=
  (findDoc db c path).map (fun d => d.processing_status)

/-- Whether the `(company_id, file_path)` record carries an error
message. -/
def docHasError (db : DB) (c : Nat) (path : String) : Option Bool :=
  (findDoc db c path).map (fun d => d.error_message.isSome)

/-- The answer the similarity-order fallback produces: the LLM applied to
the top 5 chunks of the vector store own similarity order. -/
def simFallbackOutput (env : Env) (a : Agent) (db : DB)
    (question : String) : String :=
  env.llm (buildPrompt
    (formatDocs ((env.simOrder question
      ((db.chroma a.company_id).getD [])).take 5))
    (formatHistory a.conversation_history) question)

/-! ## Concrete fixtures used by witnesses and counterexamples -/

/-- A fully healthy collaborator environment: the loader finds one page in
`kb.pdf` and nothing elsewhere, the splitter returns one chunk per page,
and no collaborator fails. -/
def env0 : Env :=
  { pages := fun p => if p = "kb.pdf" then ["page one text"] else [],
    loadFails := fun _ => false,
    loadMsg := fun _ => "load error",
    split := fun _ _ ps => ps,
    chromaBuildFails := false, chromaMsg := "chroma error",
    mongoInsertFails := false,
    rerankerSetupFails := false, rerankQueryFails := false,
    rerank := fun _ l => l,
    simOrder := fun _ l => l,
    llmFails := false, llmMsg := "llm down",
    llm := fun _ => "a helpful answer",
    ragInitFails := false, ragMsg := "rag error",
    respTime := 1 }

/-- The empty database. -/
def dbEmpty : DB :=
  { documents := [], embeddings := [], conversations := [],
    chroma := fun _ => none, nextId := 0 }

/-- A freshly constructed agent for tenant 7 over the empty database. -/
def agent7 : Agent := mkAgent env0 7 dbEmpty

/-- Tenant 7 uploads `kb.pdf` into the empty database. -/
def c2Upload : Bool × Agent × DB :=
  upload_file env0 agent7 dbEmpty ("kb.pdf") 1000 200

/-- Tenant 7 then deletes its only document by file name. -/
def c2Delete : DeleteResult × Agent × DB :=
  delete_document env0 c2Upload.2.1 c2Upload.2.2 ("kb.pdf")

/-- Truncating two lists of equal length under the same length test leaves
them with equal lengths. -/
theorem truncPair_length (n : Nat) (hl : List α) (tl : List β)
    (h : hl.length = tl.length) :
    (if hl.length > n then lastN n hl else hl).length =
    (if hl.length > n then lastN n tl else tl).length := by
  split <;> simp [lastN, List.length_drop, h]

/-! ## C7 -/

/-- C7: no-index sentinel.  For every tenant with no ready RAG chain, every
call to `ask_question` returns the sentinel text asking to upload a
document first, and does not raise (the function is total and leaves agent
and database untouched). -/
theorem c7_no_index_sentinel (env : Env) (a : Agent) (db : DB) (q : String)
    (h : a.rag_chain = false) :
    ask_question env a db q = (sentinelNoKB, a, db) := by
  unfold ask_question
  rw [h]
  rfl

/-- C7 witness: a freshly constructed agent over the empty database has no
RAG chain and receives the sentinel. -/
theorem c7_no_index_sentinel_witness :
    ask_question env0 agent7 dbEmpty ("any question") =
      (sentinelNoKB, agent7, dbEmpty) :=
  c7_no_index_sentinel env0 agent7 dbEmpty ("any question") (by decide)

/-! ## C2 -/

/-- C2: delete consistency fails on the code.  Tenant 7 uploads `kb.pdf`
(successfully) and then deletes it by file name.  The deletion reports
success and the document record disappears from `get_company_documents`,
but zero embedding rows are deleted: the chunks were stored under the fresh
`document_id` generated at the top of `upload_file`, while the deletion
matches the unrelated Mongo `_id` of the document record.  The tenant
embeddings store is therefore still non-empty, the vector index is rebuilt
from the surviving chunks, and a subsequent `ask_question` answers from
them instead of returning the no-knowledge-base sentinel. -/
theorem c2_delete_leaves_chunks_eval :
    c2Upload.1 = true ∧
    c2Delete.1.success = true ∧
    c2Delete.1.deleted_embeddings = 0 ∧
    get_company_documents c2Delete.2.1 c2Delete.2.2 = [] ∧
    embsFor c2Delete.2.2 7 ≠ [] ∧
    c2Delete.2.1.rag_chain = true ∧
    (ask_question env0 c2Delete.2.1 c2Delete.2.2 ("q")).1 ≠ sentinelNoKB := by
  decide

/-! ## C6 -/

/-- A completed document record for tenant 5, so that agent construction
finds existing documents and loads the persisted history. -/
def docRec5 : DocRecord :=
  { recId := 0, company_id := 5, file_path := "a.pdf", file_name := "a.pdf",
    processing_status := "completed", error_message := none,
    total_pages := some 1, total_chunks := some 1, chunk_size := some 1000,
    chunk_overlap := some 200 }

/-- A database with one document and one persisted exchange for tenant 5. -/
def db6 : DB :=
  { documents := [docRec5], embeddings := [],
    conversations := [{ company_id := 5, history := [("q1", "a1")] }],
    chroma := fun _ => none, nextId := 1 }

/-- C6 counterexample: constructing an agent for a tenant with one
persisted exchange loads a history of length 1 but restores no response
times, so the two lengths differ right after construction - the claim that
the invariant holds at all times, including after construction with loaded
history, is false. -/
theorem c6_load_breaks_cotruncation :
    ¬ ((mkAgent env0 5 db6).conversation_history.length =
       (mkAgent env0 5 db6).response_times.length) := by
  decide

/-- C6 amended: the history length equals the response-times length after
construction whenever the loaded persisted history is empty, after every
`clear_conversation_history`, and it is preserved by every `ask_question`
call (both lists are appended to and truncated together); but construction
that loads a non-empty persisted history violates it, because
`_load_conversation_history` restores the history without the response
times. -/
theorem c6_cotruncation_amended :
    (∀ env c db, loadedHistory db c = [] →
      (mkAgent env c db).conversation_history.length =
      (mkAgent env c db).response_times.length) ∧
    (∀ a db,
      (clear_conversation_history a db).1.conversation_history.length =
      (clear_conversation_history a db).1.response_times.length) ∧
    (∀ env a db q,
      a.conversation_history.length = a.response_times.length →
      (ask_question env a db q).2.1.conversation_history.length =
      (ask_question env a db q).2.1.response_times.length) := by
  refine ⟨?load, ?clear, ?ask⟩
  case load =>
    intro env c db h
    unfold mkAgent
    split
    · split
      · split
        · rfl
        · simp [h]
      · simp [h]
    · rfl
  case clear =>
    intro a db
    rfl
  case ask =>
    intro env a db q h
    unfold ask_question
    split
    · exact h
    · split
      · exact h
      · exact truncPair_length 10 _ _ (by simp [h])

/-- C6 witness for the amended statement, at concrete inputs: a fresh
tenant with no persisted history, a cleared history, and one answer call
starting from equal lengths. -/
theorem c6_cotruncation_amended_witness :
    ((mkAgent env0 5 dbEmpty).conversation_history.length =
      (mkAgent env0 5 dbEmpty).response_times.length) ∧
    ((clear_conversation_history agent7 dbEmpty).1.conversation_history.length =
      (clear_conversation_history agent7 dbEmpty).1.response_times.length) ∧
    ((ask_question env0 agent7 dbEmpty ("q")).2.1.conversation_history.length =
      (ask_question env0 agent7 dbEmpty ("q")).2.1.response_times.length) :=
  ⟨c6_cotruncation_amended.1 env0 5 dbEmpty (by decide),
   c6_cotruncation_amended.2.1 agent7 dbEmpty,
   c6_cotruncation_amended.2.2 env0 agent7 dbEmpty ("q") (by decide)⟩

/-! ## C5 -/

/-- Taking the last `n` of a list no longer than `n` is the identity. -/
theorem lastN_of_le (n : Nat) (l : List α) (h : l.length ≤ n) :
    lastN n l = l := by
  unfold lastN
  rw [Nat.sub_eq_zero_of_le h, List.drop_zero]

/-- The length of `lastN`. -/
theorem lastN_length (n : Nat) (l : List α) :
    (lastN n l).length = l.length - (l.length - n) := by
  simp [lastN]

/-- `lastN` commutes with `map`. -/
theorem lastN_map (f : α → β) (n : Nat) (l : List α) :
    (lastN n l).map f = lastN n (l.map f) := by
  simp [lastN, List.map_drop]

/-- Truncating the left part of an append to its last `n` elements does not
change the last `n` elements of the whole. -/
theorem lastN_append_lastN (n : Nat) (l t : List α) :
    lastN n (lastN n l ++ t) = lastN n (l ++ t) := by
  unfold lastN
  rw [List.drop_append_eq_append_drop, List.drop_append_eq_append_drop,
      List.drop_drop]
  simp only [List.length_append, List.length_drop]
  congr 1
  · congr 1
    omega
  · congr 1
    omega

/-- The last `n` elements of an append all come from a right part of length
at least `n`. -/
theorem lastN_append_of_le (n : Nat) (l t : List α) (h : n ≤ t.length) :
    lastN n (l ++ t) = lastN n t := by
  unfold lastN
  rw [List.drop_append_eq_append_drop,
      List.drop_eq_nil_of_le (by simp only [List.length_append]; omega)]
  simp only [List.length_append, List.nil_append]
  congr 1
  omega

/-- The source truncation `if len > 10 then keep last 10` is `lastN 10`. -/
theorem trunc_eq_lastN (l : List α) :
    (if l.length > 10 then lastN 10 l else l) = lastN 10 l := by
  split
  · rfl
  · exact (lastN_of_le 10 l (by omega)).symm

/-- One successful `ask_question` call: the answer is the chain output, the
retained history is the last 10 of the old history plus the new exchange,
and the chain and retriever configuration are untouched. -/
theorem ask_success_step (env : Env) (a : Agent) (db : DB) (q : String)
    (h1 : a.rag_chain = true) (h2 : chainRaises env a = false) :
    (ask_question env a db q).1 = chainOutput env a db q ∧
    (ask_question env a db q).2.1.conversation_history =
      lastN 10 (a.conversation_history ++ [(q, chainOutput env a db q)]) ∧
    (ask_question env a db q).2.1.rag_chain = a.rag_chain ∧
    (ask_question env a db q).2.1.fallback = a.fallback := by
  unfold ask_question
  rw [h1, h2]
  exact ⟨rfl, trunc_eq_lastN _, rfl, rfl⟩

/-- The questions of a transcript are the questions asked, in order. -/
theorem askTranscript_map_fst (env : Env) (qs : List String) :
    ∀ (a : Agent) (db : DB),
      (askTranscript env qs a db).map Prod.fst = qs := by
  induction qs with
  | nil => intro a db; rfl
  | cons q rest ih =>
    intro a db
    simp only [askTranscript, List.map_cons]
    rw [ih]

/-- A transcript has one entry per question. -/
theorem askTranscript_length (env : Env) (qs : List String) (a : Agent)
    (db : DB) : (askTranscript env qs a db).length = qs.length := by
  have h := congrArg List.length (askTranscript_map_fst env qs a db)
  simpa using h

/-- After a run of successful `ask_question` calls the retained history is
the last 10 of the starting history extended by the transcript, and the
chain and retriever configuration are untouched. -/
theorem askMany_history (env : Env) (qs : List String) :
    ∀ (a : Agent) (db : DB), a.rag_chain = true →
      chainRaises env a = false → a.conversation_history.length ≤ 10 →
      (askMany env qs a db).1.conversation_history =
        lastN 10 (a.conversation_history ++ askTranscript env qs a db) ∧
      (askMany env qs a db).1.rag_chain = true ∧
      (askMany env qs a db).1.fallback = a.fallback := by
  induction qs with
  | nil =>
    intro a db h1 h2 h3
    refine ⟨?_, h1, rfl⟩
    show a.conversation_history = lastN 10 (a.conversation_history ++ [])
    rw [List.append_nil, lastN_of_le 10 _ h3]
  | cons q rest ih =>
    intro a db h1 h2 h3
    obtain ⟨hout, hhist, hrag, hfb⟩ := ask_success_step env a db q h1 h2
    have h1a : (ask_question env a db q).2.1.rag_chain = true := by
      rw [hrag, h1]
    have h2a : chainRaises env (ask_question env a db q).2.1 = false := by
      unfold chainRaises at h2 ⊢
      rw [hfb]
      exact h2
    have h3a : (ask_question env a db q).2.1.conversation_history.length ≤
        10 := by
      rw [hhist, lastN_length]
      omega
    obtain ⟨ih1, ih2, ih3⟩ :=
      ih (ask_question env a db q).2.1 (ask_question env a db q).2.2 h1a
        h2a h3a
    have hstep : askMany env (q :: rest) a db =
        askMany env rest (ask_question env a db q).2.1
          (ask_question env a db q).2.2 := rfl
    have htr : askTranscript env (q :: rest) a db =
        (q, (ask_question env a db q).1) ::
          askTranscript env rest (ask_question env a db q).2.1
            (ask_question env a db q).2.2 := rfl
    refine ⟨?_, ?_, ?_⟩
    · rw [hstep, ih1, hhist, htr, hout, lastN_append_lastN]
      congr 1
      simp [List.append_assoc]
    · rw [hstep, ih2]
    · rw [hstep, ih3, hfb]

/-- C5: history bound.  Starting from any agent with a ready chain, a
non-raising environment, and a retained history within the bound, after a
sequence of 15 (= N+5 with N = 10) successful `ask_question` calls the
retained history has exactly 10 exchanges, and they are the last 10
question/answer pairs of the run in the order they were asked (in
particular the questions are the last 10 questions asked, in order). -/
theorem c5_history_bound (env : Env) (a : Agent) (db : DB)
    (qs : List String) (hchain : a.rag_chain = true)
    (hok : chainRaises env a = false)
    (hlen : a.conversation_history.length ≤ 10) (hqs : qs.length = 15) :
    (askMany env qs a db).1.conversation_history.length = 10 ∧
    (askMany env qs a db).1.conversation_history =
      lastN 10 (askTranscript env qs a db) ∧
    (askMany env qs a db).1.conversation_history.map Prod.fst =
      lastN 10 qs := by
  obtain ⟨h1, -, -⟩ := askMany_history env qs a db hchain hok hlen
  have hT : (askTranscript env qs a db).length = 15 := by
    rw [askTranscript_length, hqs]
  have h2 : (askMany env qs a db).1.conversation_history =
      lastN 10 (askTranscript env qs a db) := by
    rw [h1, lastN_append_of_le 10 _ _ (by omega)]
  refine ⟨?_, h2, ?_⟩
  · rw [h2, lastN_length, hT]
  · rw [h2, lastN_map, askTranscript_map_fst]

/-- Fifteen identical questions. -/
def qs15 : List String := List.replicate 15 ("what are your hours")

/-- C5 witness: tenant 7 uploads its document and asks 15 questions; the
retained history is exactly the last 10 exchanges. -/
theorem c5_history_bound_witness :
    (askMany env0 qs15 c2Upload.2.1 c2Upload.2.2).1.conversation_history.length
      = 10 ∧
    (askMany env0 qs15 c2Upload.2.1 c2Upload.2.2).1.conversation_history =
      lastN 10 (askTranscript env0 qs15 c2Upload.2.1 c2Upload.2.2) ∧
    (askMany env0 qs15 c2Upload.2.1 c2Upload.2.2).1.conversation_history.map
      Prod.fst = lastN 10 qs15 :=
  c5_history_bound env0 c2Upload.2.1 c2Upload.2.2 qs15 (by decide)
    (by decide) (by decide) (by decide)

/-! ## Branch lemmas for `upload_file` -/

/-- `updateFirst` with a match-preserving rewrite preserves `any`. -/
theorem any_updateFirst (p : α → Bool) (f : α → α)
    (hf : ∀ x, p x = true → p (f x) = true) (l : List α) :
    (updateFirst p f l).any p = l.any p := by
  induction l with
  | nil => rfl
  | cons x xs ih =>
    cases hx : p x with
    | true => simp [updateFirst, hx, hf x hx]
    | false => simp [updateFirst, hx, ih]

/-- `updateFirst` with a match-preserving rewrite preserves `countP`. -/
theorem countP_updateFirst (p : α → Bool) (f : α → α)
    (hf : ∀ x, p x = true → p (f x) = true) (l : List α) :
    (updateFirst p f l).countP p = l.countP p := by
  induction l with
  | nil => rfl
  | cons x xs ih =>
    cases hx : p x with
    | true => simp [updateFirst, hx, hf x hx, List.countP_cons]
    | false => simp [updateFirst, hx, ih, List.countP_cons]

/-- `find?` after `updateFirst` with a match-preserving rewrite. -/
theorem find?_updateFirst (p : α → Bool) (f : α → α)
    (hf : ∀ x, p x = true → p (f x) = true) (l : List α) :
    (updateFirst p f l).find? p = (l.find? p).map f := by
  induction l with
  | nil => rfl
  | cons x xs ih =>
    cases hx : p x with
    | true =>
      rw [updateFirst]
      simp only [hx, if_true]
      rw [List.find?_cons_of_pos xs (hf x hx), List.find?_cons_of_pos xs hx]
      rfl
    | false =>
      rw [updateFirst]
      simp only [hx, Bool.false_eq_true, if_false]
      rw [List.find?_cons_of_neg (updateFirst p f xs) (by simp [hx]),
          List.find?_cons_of_neg xs (by simp [hx]), ih]

/-- The collections other than `documents` are untouched by a document
upsert, and so is the Chroma state. -/
theorem upsert_embeddings (db : DB) (c : Nat) (path : String)
    (f : DocRecord → DocRecord) (mk : Nat → DocRecord) :
    (upsertDocByPath db c path f mk).embeddings = db.embeddings := by
  unfold upsertDocByPath
  split <;> rfl

/-- Conversations are untouched by a document upsert. -/
theorem upsert_conversations (db : DB) (c : Nat) (path : String)
    (f : DocRecord → DocRecord) (mk : Nat → DocRecord) :
    (upsertDocByPath db c path f mk).conversations = db.conversations := by
  unfold upsertDocByPath
  split <;> rfl

/-- Chroma directories are untouched by a document upsert. -/
theorem upsert_chroma (db : DB) (c : Nat) (path : String)
    (f : DocRecord → DocRecord) (mk : Nat → DocRecord) :
    (upsertDocByPath db c path f mk).chroma = db.chroma := by
  unfold upsertDocByPath
  split <;> rfl

/-- After a document upsert whose rewrite preserves the key and whose new
record carries the key, a record with the key is present. -/
theorem upsert_any (db : DB) (c : Nat) (path : String)
    (f : DocRecord → DocRecord) (mk : Nat → DocRecord)
    (hf : ∀ d, docKey c path d = true → docKey c path (f d) = true)
    (hmk : ∀ i, docKey c path (mk i) = true) :
    (upsertDocByPath db c path f mk).documents.any (docKey c path) = true := by
  unfold upsertDocByPath
  split
  · next hfound =>
    show (updateFirst (docKey c path) f db.documents).any (docKey c path)
      = true
    rw [any_updateFirst (docKey c path) f hf, hfound]
  · show (db.documents ++ [mk db.nextId]).any (docKey c path) = true
    rw [List.any_append]
    simp [hmk]

/-- `find?` on the documents after an upsert, when a matching record was
already present. -/
theorem findDoc_upsert_of_found (db : DB) (c : Nat) (path : String)
    (f : DocRecord → DocRecord) (mk : Nat → DocRecord)
    (hf : ∀ d, docKey c path d = true → docKey c path (f d) = true)
    (hfound : db.documents.any (docKey c path) = true) :
    findDoc (upsertDocByPath db c path f mk) c path =
      (db.documents.find? (docKey c path)).map f := by
  unfold findDoc upsertDocByPath
  rw [if_pos hfound]
  exact find?_updateFirst (docKey c path) f hf db.documents

/-- `find?` on the documents after an upsert, when no matching record was
present: the freshly inserted record is found. -/
theorem findDoc_upsert_of_missing (db : DB) (c : Nat) (path : String)
    (f : DocRecord → DocRecord) (mk : Nat → DocRecord)
    (hmk : ∀ i, docKey c path (mk i) = true)
    (hmiss : db.documents.any (docKey c path) = false) :
    findDoc (upsertDocByPath db c path f mk) c path = some (mk db.nextId) := by
  unfold findDoc upsertDocByPath
  rw [if_neg (by rw [hmiss]; exact Bool.false_ne_true)]
  show (db.documents ++ [mk db.nextId]).find? (docKey c path) = _
  rw [List.find?_append]
  have hnone : db.documents.find? (docKey c path) = none := by
    rw [List.find?_eq_none]
    intro x hx hpx
    have : db.documents.any (docKey c path) = true :=
      List.any_eq_true.mpr ⟨x, hx, hpx⟩
    rw [hmiss] at this
    exact Bool.false_ne_true this
  rw [hnone]
  simp [hmk]

/-- The key-rewrites used by the upload path preserve the document key. -/
theorem docKey_pres_failed (c : Nat) (path msg : String) :
    ∀ d, docKey c path d = true →
      docKey c path
        { d with file_name := baseName path,
                 processing_status := ("failed"),
                 error_message := some msg } = true := by
  intro d hd
  simpa [docKey] using hd

/-- The `processing` rewrite preserves the document key. -/
theorem docKey_pres_processing (c : Nat) (path : String) :
    ∀ d, docKey c path d = true →
      docKey c path
        { d with file_name := baseName path,
                 processing_status := ("processing") } = true := by
  intro d hd
  simpa [docKey] using hd

/-- After `failedUpsert` the `(company_id, file_path)` record exists with
status `failed` and the recorded error message. -/
theorem failedUpsert_status (db : DB) (c : Nat) (path msg : String) :
    docStatus (failedUpsert db c path msg) c path = some ("failed") ∧
    (findDoc (failedUpsert db c path msg) c path).map
      (fun d => d.error_message) = some (some msg) := by
  unfold failedUpsert
  cases hfound : db.documents.any (docKey c path) with
  | true =>
    rw [docStatus, findDoc_upsert_of_found db c path _ _
      (docKey_pres_failed c path msg) hfound]
    obtain ⟨d, hd⟩ := Option.isSome_iff_exists.mp
      (List.find?_isSome.mpr (by
        obtain ⟨x, hx, hpx⟩ := List.any_eq_true.mp hfound
        exact ⟨x, hx, hpx⟩))
    rw [hd]
    exact ⟨rfl, rfl⟩
  | false =>
    rw [docStatus, findDoc_upsert_of_missing db c path _ _
      (fun i => by simp [docKey]) hfound]
    exact ⟨rfl, rfl⟩

/-- The agent state after a fully successful upload. -/
def uploadHappyAgent (env : Env) (a : Agent) : Agent :=
  { a with vector_store := true, fallback := env.rerankerSetupFails,
           rag_chain := true }

/-- The database state after a fully successful upload: `processing`
upsert, Chroma build, embeddings batch insert (skipped if the Mongo write
raised), completion update. -/
def uploadHappyDB (env : Env) (db : DB) (c : Nat) (path : String)
    (cs co : Nat) : DB :=
  let db0 : DB := { db with nextId := db.nextId + 1 }
  let db1 := processingUpsert db0 c path
  let docs := env.split cs co (env.pages path)
  let db2 := addChroma db1 c docs
  let db3 := if env.mongoInsertFails then db2
             else addEmbeddings db2 c db.nextId docs
  completedUpdate db3 c path (env.pages path).length docs.length cs co

/-- When no shortcut applies and no collaborator involved in
load/chunk/index/init fails, `upload_file` returns `true` with the
happy-path state. -/
theorem upload_file_happy (env : Env) (a : Agent) (db : DB) (path : String)
    (cs co : Nat)
    (hcond : (db.documents.any (docKey a.company_id path) &&
      (db.chroma a.company_id).isSome) = false)
    (hl : env.loadFails path = false)
    (hp : (env.pages path).isEmpty = false)
    (hc : (env.chromaBuildFails ||
      (env.split cs co (env.pages path)).isEmpty) = false)
    (hr : env.ragInitFails = false) :
    upload_file env a db path cs co =
      (true, uploadHappyAgent env a,
       uploadHappyDB env db a.company_id path cs co) := by
  unfold upload_file uploadHappyAgent uploadHappyDB
  dsimp only
  rw [hcond, hl, hp, hc, hr]
  rfl

/-- Inversion: if no shortcut applies and `upload_file` returned `true`,
then none of the load/chunk/index/init steps failed. -/
theorem upload_success_conditions (env : Env) (a : Agent) (db : DB)
    (path : String) (cs co : Nat)
    (hcond : (db.documents.any (docKey a.company_id path) &&
      (db.chroma a.company_id).isSome) = false)
    (hsucc : (upload_file env a db path cs co).1 = true) :
    env.loadFails path = false ∧ (env.pages path).isEmpty = false ∧
    (env.chromaBuildFails ||
      (env.split cs co (env.pages path)).isEmpty) = false ∧
    env.ragInitFails = false := by
  unfold upload_file at hsucc
  dsimp only at hsucc
  rw [hcond] at hsucc
  cases h1 : env.loadFails path with
  | true => rw [h1] at hsucc; simp at hsucc
  | false =>
    rw [h1] at hsucc
    cases h2 : (env.pages path).isEmpty with
    | true => rw [h2] at hsucc; simp at hsucc
    | false =>
      rw [h2] at hsucc
      cases h3 : (env.chromaBuildFails ||
          (env.split cs co (env.pages path)).isEmpty) with
      | true => rw [h3] at hsucc; simp at hsucc
      | false =>
        rw [h3] at hsucc
        cases h4 : env.ragInitFails with
        | true => rw [h4] at hsucc; simp at hsucc
        | false => exact ⟨rfl, rfl, rfl, rfl⟩

/-- When no shortcut applies and the PDF loader raises, `upload_file`
lands in the `except` handler: `failed` upsert with the loader message. -/
theorem upload_file_loadfail (env : Env) (a : Agent) (db : DB)
    (path : String) (cs co : Nat)
    (hcond : (db.documents.any (docKey a.company_id path) &&
      (db.chroma a.company_id).isSome) = false)
    (hl : env.loadFails path = true) :
    upload_file env a db path cs co =
      (false, a,
       failedUpsert (processingUpsert { db with nextId := db.nextId + 1 }
         a.company_id path) a.company_id path (env.loadMsg path)) := by
  unfold upload_file
  dsimp only
  rw [hcond, hl]
  rfl

/-- When no shortcut applies and the loader returns no pages,
`upload_file` marks the record failed with the no-content message. -/
theorem upload_file_nocontent (env : Env) (a : Agent) (db : DB)
    (path : String) (cs co : Nat)
    (hcond : (db.documents.any (docKey a.company_id path) &&
      (db.chroma a.company_id).isSome) = false)
    (hl : env.loadFails path = false)
    (hp : (env.pages path).isEmpty = true) :
    upload_file env a db path cs co =
      (false, a,
       noContentUpdate (processingUpsert { db with nextId := db.nextId + 1 }
         a.company_id path) a.company_id path) := by
  unfold upload_file
  dsimp only
  rw [hcond, hl, hp]
  rfl

/-- When no shortcut applies and the Chroma build raises (also when the
splitter returns no chunks, on which `Chroma.from_documents` raises),
`upload_file` lands in the `except` handler with the build message. -/
theorem upload_file_chromafail (env : Env) (a : Agent) (db : DB)
    (path : String) (cs co : Nat)
    (hcond : (db.documents.any (docKey a.company_id path) &&
      (db.chroma a.company_id).isSome) = false)
    (hl : env.loadFails path = false)
    (hp : (env.pages path).isEmpty = false)
    (hc : (env.chromaBuildFails ||
      (env.split cs co (env.pages path)).isEmpty) = true) :
    upload_file env a db path cs co =
      (false, a,
       failedUpsert (processingUpsert { db with nextId := db.nextId + 1 }
         a.company_id path) a.company_id path env.chromaMsg) := by
  unfold upload_file
  dsimp only
  rw [hcond, hl, hp, hc]
  rfl

/-- After `noContentUpdate` over a state holding the `(c, path)` record,
the record is `failed` with the no-content message. -/
theorem noContentUpdate_status (db : DB) (c : Nat) (path : String)
    (hany : db.documents.any (docKey c path) = true) :
    docStatus (noContentUpdate db c path) c path = some ("failed") ∧
    (findDoc (noContentUpdate db c path) c path).map
      (fun d => d.error_message) = some (some noContentMsg) := by
  have hfind : findDoc (noContentUpdate db c path) c path =
      (db.documents.find? (docKey c path)).map
        (fun d => { d with processing_status := ("failed"),
                           error_message := some noContentMsg }) := by
    unfold findDoc noContentUpdate
    exact find?_updateFirst (docKey c path) _
      (fun d hd => by simpa [docKey] using hd) db.documents
  obtain ⟨d, hd⟩ := Option.isSome_iff_exists.mp
    (List.find?_isSome.mpr (List.any_eq_true.mp hany))
  rw [docStatus, hfind, hd]
  exact ⟨rfl, rfl⟩

/-- After `completedUpdate` over a state holding the `(c, path)` record,
the record is `completed` and carries the chunk count. -/
theorem completedUpdate_status (db : DB) (c : Nat) (path : String)
    (np nc cs co : Nat)
    (hany : db.documents.any (docKey c path) = true) :
    docStatus (completedUpdate db c path np nc cs co) c path =
      some ("completed") ∧
    (findDoc (completedUpdate db c path np nc cs co) c path).map
      (fun d => d.total_chunks) = some (some nc) := by
  have hfind : findDoc (completedUpdate db c path np nc cs co) c path =
      (db.documents.find? (docKey c path)).map
        (fun d => { d with total_pages := some np,
                           total_chunks := some nc,
                           chunk_size := some cs,
                           chunk_overlap := some co,
                           processing_status := ("completed") }) := by
    unfold findDoc completedUpdate
    exact find?_updateFirst (docKey c path) _
      (fun d hd => by simpa [docKey] using hd) db.documents
  obtain ⟨d, hd⟩ := Option.isSome_iff_exists.mp
    (List.find?_isSome.mpr (List.any_eq_true.mp hany))
  rw [docStatus, hfind, hd]
  exact ⟨rfl, rfl⟩

/-- The `processing` upsert always leaves a `(c, path)` record present. -/
theorem processingUpsert_any (db : DB) (c : Nat) (path : String) :
    (processingUpsert db c path).documents.any (docKey c path) = true := by
  unfold processingUpsert
  exact upsert_any db c path _ _ (docKey_pres_processing c path)
    (fun i => by simp [docKey])

/-! ## C4 -/

/-- C4, as amended: upload failure containment holds for the load, chunk,
embed and index steps, but not for the durable persist step.  Whenever the
loader raises, or the Chroma build step raises (including an embedding
failure inside it, or an empty chunk set), `upload_file` returns `False`,
the `(tenant, path)` record is set to `failed`, and an error message is
recorded on it.  No exception escapes: the model of `upload_file` is a
total function whose every failure branch lands in the `except` handler.
An exception in the persist step is instead swallowed inside
`_store_embeddings_in_mongodb` (see the C4 counterexample below). -/
theorem c4_upload_failure_contained (env : Env) (a : Agent) (db : DB)
    (path : String) (cs co : Nat)
    (hcond : (db.documents.any (docKey a.company_id path) &&
      (db.chroma a.company_id).isSome) = false)
    (hfail : env.loadFails path = true ∨
      (env.loadFails path = false ∧ (env.pages path).isEmpty = false ∧
       (env.chromaBuildFails ||
         (env.split cs co (env.pages path)).isEmpty) = true)) :
    (upload_file env a db path cs co).1 = false ∧
    docStatus (upload_file env a db path cs co).2.2 a.company_id path =
      some ("failed") ∧
    (∃ m, (findDoc (upload_file env a db path cs co).2.2 a.company_id
      path).map (fun d => d.error_message) = some (some m)) := by
  rcases hfail with hl | ⟨hl, hp, hc⟩
  · rw [upload_file_loadfail env a db path cs co hcond hl]
    exact ⟨rfl, (failedUpsert_status _ _ _ _).1,
      env.loadMsg path, (failedUpsert_status _ _ _ _).2⟩
  · rw [upload_file_chromafail env a db path cs co hcond hl hp hc]
    exact ⟨rfl, (failedUpsert_status _ _ _ _).1,
      env.chromaMsg, (failedUpsert_status _ _ _ _).2⟩

/-- An environment whose PDF loader raises on every path. -/
def envLoadFail : Env := { env0 with loadFails := fun _ => true }

/-- C4 witness: a raising loader yields `False` and a `failed` record with
a recorded message. -/
theorem c4_upload_failure_contained_witness :
    (upload_file envLoadFail agent7 dbEmpty ("x.pdf") 1000 200).1 = false ∧
    docStatus (upload_file envLoadFail agent7 dbEmpty ("x.pdf") 1000
      200).2.2 agent7.company_id ("x.pdf") = some ("failed") ∧
    (∃ m, (findDoc (upload_file envLoadFail agent7 dbEmpty ("x.pdf") 1000
      200).2.2 agent7.company_id ("x.pdf")).map
      (fun d => d.error_message) = some (some m)) :=
  c4_upload_failure_contained envLoadFail agent7 dbEmpty ("x.pdf") 1000 200
    (by decide) (Or.inl (by decide))

/-! ## C9 -/

/-- C9: empty-document handling.  When the loader yields no pages (and no
already-processed shortcut applies), `upload_file` returns `False`, marks
the record `failed` with the no-content message, creates no chunk rows in
the durable embeddings store, neither builds nor mutates any Chroma
directory, and leaves the in-memory agent untouched. -/
theorem c9_empty_document (env : Env) (a : Agent) (db : DB) (path : String)
    (cs co : Nat)
    (hcond : (db.documents.any (docKey a.company_id path) &&
      (db.chroma a.company_id).isSome) = false)
    (hl : env.loadFails path = false)
    (hp : env.pages path = []) :
    (upload_file env a db path cs co).1 = false ∧
    docStatus (upload_file env a db path cs co).2.2 a.company_id path =
      some ("failed") ∧
    (findDoc (upload_file env a db path cs co).2.2 a.company_id path).map
      (fun d => d.error_message) = some (some noContentMsg) ∧
    (upload_file env a db path cs co).2.2.embeddings = db.embeddings ∧
    (upload_file env a db path cs co).2.2.chroma = db.chroma ∧
    (upload_file env a db path cs co).2.1 = a := by
  have hp2 : (env.pages path).isEmpty = true := by rw [hp]; rfl
  rw [upload_file_nocontent env a db path cs co hcond hl hp2]
  have hst := noContentUpdate_status
    (processingUpsert { db with nextId := db.nextId + 1 } a.company_id path)
    a.company_id path (processingUpsert_any _ _ _)
  exact ⟨rfl, hst.1, hst.2, upsert_embeddings _ _ _ _ _,
    upsert_chroma _ _ _ _ _, rfl⟩

/-- C9 witness: tenant 7 uploads a path whose extraction yields no pages. -/
theorem c9_empty_document_witness :
    (upload_file env0 agent7 dbEmpty ("empty.pdf") 1000 200).1 = false ∧
    docStatus (upload_file env0 agent7 dbEmpty ("empty.pdf") 1000 200).2.2
      agent7.company_id ("empty.pdf") = some ("failed") ∧
    (findDoc (upload_file env0 agent7 dbEmpty ("empty.pdf") 1000 200).2.2
      agent7.company_id ("empty.pdf")).map (fun d => d.error_message) =
      some (some noContentMsg) ∧
    (upload_file env0 agent7 dbEmpty ("empty.pdf") 1000 200).2.2.embeddings
      = dbEmpty.embeddings ∧
    (upload_file env0 agent7 dbEmpty ("empty.pdf") 1000 200).2.2.chroma =
      dbEmpty.chroma ∧
    (upload_file env0 agent7 dbEmpty ("empty.pdf") 1000 200).2.1 = agent7 :=
  c9_empty_document env0 agent7 dbEmpty ("empty.pdf") 1000 200 (by decide)
    (by decide) (by decide)

/-! ## C10 -/

/-- C10: non-atomic ingestion.  When the durable embeddings write raises
(and everything else succeeds), `upload_file` still returns `True`, the
record is `completed` with the full chunk count, the live Chroma directory
received the chunks, yet not a single chunk row was added to the durable
embeddings store - the store write swallows its own exception
(`_store_embeddings_in_mongodb`), so a successful upload does not
guarantee durable chunks. -/
theorem c10_mongo_failure_swallowed (env : Env) (a : Agent) (db : DB)
    (path : String) (cs co : Nat)
    (hcond : (db.documents.any (docKey a.company_id path) &&
      (db.chroma a.company_id).isSome) = false)
    (hl : env.loadFails path = false)
    (hp : (env.pages path).isEmpty = false)
    (hc : (env.chromaBuildFails ||
      (env.split cs co (env.pages path)).isEmpty) = false)
    (hr : env.ragInitFails = false)
    (hm : env.mongoInsertFails = true) :
    (upload_file env a db path cs co).1 = true ∧
    (upload_file env a db path cs co).2.2.embeddings = db.embeddings ∧
    docStatus (upload_file env a db path cs co).2.2 a.company_id path =
      some ("completed") ∧
    (findDoc (upload_file env a db path cs co).2.2 a.company_id path).map
      (fun d => d.total_chunks) =
      some (some (env.split cs co (env.pages path)).length) ∧
    (upload_file env a db path cs co).2.2.chroma a.company_id =
      some (((db.chroma a.company_id).getD []) ++
        env.split cs co (env.pages path)) := by
  have he : uploadHappyDB env db a.company_id path cs co =
      completedUpdate
        (addChroma (processingUpsert { db with nextId := db.nextId + 1 }
          a.company_id path) a.company_id
          (env.split cs co (env.pages path)))
        a.company_id path (env.pages path).length
        (env.split cs co (env.pages path)).length cs co := by
    unfold uploadHappyDB
    dsimp only
    rw [hm]
    rfl
  have hany : (addChroma (processingUpsert
      { db with nextId := db.nextId + 1 } a.company_id path) a.company_id
      (env.split cs co (env.pages path))).documents.any
      (docKey a.company_id path) = true :=
    processingUpsert_any _ _ _
  have hst := completedUpdate_status
    (addChroma (processingUpsert { db with nextId := db.nextId + 1 }
      a.company_id path) a.company_id (env.split cs co (env.pages path)))
    a.company_id path (env.pages path).length
    (env.split cs co (env.pages path)).length cs co hany
  rw [upload_file_happy env a db path cs co hcond hl hp hc hr, he]
  refine ⟨rfl, upsert_embeddings _ _ _ _ _, hst.1, hst.2, ?_⟩
  dsimp only [completedUpdate, addChroma, processingUpsert]
  rw [upsert_chroma]
  simp

/-- An environment where only the durable embeddings write fails. -/
def envMongoFail : Env := { env0 with mongoInsertFails := true }

/-- C10 witness: tenant 7 uploads `kb.pdf` while the Mongo embeddings
write raises; upload reports success and completion but the durable store
is unchanged. -/
theorem c10_mongo_failure_swallowed_witness :
    (upload_file envMongoFail agent7 dbEmpty ("kb.pdf") 1000 200).1 = true ∧
    (upload_file envMongoFail agent7 dbEmpty ("kb.pdf") 1000
      200).2.2.embeddings = dbEmpty.embeddings ∧
    docStatus (upload_file envMongoFail agent7 dbEmpty ("kb.pdf") 1000
      200).2.2 agent7.company_id ("kb.pdf") = some ("completed") ∧
    (findDoc (upload_file envMongoFail agent7 dbEmpty ("kb.pdf") 1000
      200).2.2 agent7.company_id ("kb.pdf")).map (fun d => d.total_chunks)
      = some (some (envMongoFail.split 1000 200
        (envMongoFail.pages ("kb.pdf"))).length) ∧
    (upload_file envMongoFail agent7 dbEmpty ("kb.pdf") 1000
      200).2.2.chroma agent7.company_id =
      some (((dbEmpty.chroma agent7.company_id).getD []) ++
        envMongoFail.split 1000 200 (envMongoFail.pages ("kb.pdf"))) :=
  c10_mongo_failure_swallowed envMongoFail agent7 dbEmpty ("kb.pdf") 1000
    200 (by decide) (by decide) (by decide) (by decide) (by decide)
    (by decide)

/-! ## C3 -/

/-- The embeddings are untouched by the `processing` upsert. -/
theorem processingUpsert_embeddings (db : DB) (c : Nat) (path : String) :
    (processingUpsert db c path).embeddings = db.embeddings :=
  upsert_embeddings _ _ _ _ _

/-- After a fully successful upload a `(tenant, path)` record exists. -/
theorem happyDB_any (env : Env) (db : DB) (c : Nat) (path : String)
    (cs co : Nat) :
    (uploadHappyDB env db c path cs co).documents.any (docKey c path) =
      true := by
  unfold uploadHappyDB completedUpdate
  dsimp only
  split
  · rw [any_updateFirst (docKey c path) _
      (fun d hd => by simpa [docKey] using hd)]
    exact processingUpsert_any _ _ _
  · rw [any_updateFirst (docKey c path) _
      (fun d hd => by simpa [docKey] using hd)]
    exact processingUpsert_any _ _ _

/-- After a fully successful upload the tenant Chroma directory exists. -/
theorem happyDB_chroma_isSome (env : Env) (db : DB) (c : Nat)
    (path : String) (cs co : Nat) :
    ((uploadHappyDB env db c path cs co).chroma c).isSome = true := by
  unfold uploadHappyDB completedUpdate addChroma addEmbeddings
  dsimp only
  split <;> simp

/-- A fully successful upload over a fresh `(tenant, path)` leaves exactly
one matching document record. -/
theorem happyDB_countP (env : Env) (db : DB) (c : Nat) (path : String)
    (cs co : Nat) (hfresh : db.documents.any (docKey c path) = false) :
    (uploadHappyDB env db c path cs co).documents.countP (docKey c path) =
      1 := by
  have base : (processingUpsert { db with nextId := db.nextId + 1 } c
      path).documents.countP (docKey c path) = 1 := by
    unfold processingUpsert upsertDocByPath
    dsimp only
    rw [hfresh]
    simp only [Bool.false_eq_true, if_false]
    rw [List.countP_append,
        List.countP_eq_zero.mpr (fun x hx => by
          intro hpx
          have hone : db.documents.any (docKey c path) = true :=
            List.any_eq_true.mpr ⟨x, hx, hpx⟩
          rw [hfresh] at hone
          exact Bool.false_ne_true hone)]
    simp [docKey]
  unfold uploadHappyDB completedUpdate
  dsimp only
  split
  · rw [countP_updateFirst (docKey c path) _
      (fun d hd => by simpa [docKey] using hd)]
    exact base
  · rw [countP_updateFirst (docKey c path) _
      (fun d hd => by simpa [docKey] using hd)]
    exact base

/-- The chunk rows a fully successful upload adds to the durable store:
none when the Mongo write raised, otherwise one batch all keyed by the
tenant and the single fresh ingestion id. -/
theorem happyDB_embeddings (env : Env) (db : DB) (c : Nat) (path : String)
    (cs co : Nat) :
    ∃ newChunks,
      (uploadHappyDB env db c path cs co).embeddings =
        db.embeddings ++ newChunks ∧
      ∀ e ∈ newChunks, e.company_id = c ∧ e.document_id = db.nextId := by
  unfold uploadHappyDB completedUpdate
  dsimp only
  split
  · refine ⟨[], ?_, by simp⟩
    rw [List.append_nil]
    exact processingUpsert_embeddings _ _ _
  · refine ⟨(env.split cs co (env.pages path)).enum.map (fun p =>
      { company_id := c, document_id := db.nextId, chunk_index := p.1,
        chunk_text := p.2 }), ?_, ?_⟩
    · show (processingUpsert { db with nextId := db.nextId + 1 } c
        path).embeddings ++ _ = db.embeddings ++ _
      rw [processingUpsert_embeddings]
    · intro e he
      simp only [List.mem_map] at he
      obtain ⟨p, hp, rfl⟩ := he
      exact ⟨rfl, rfl⟩

/-- C3: idempotent re-upload.  If `(tenant, path)` was fresh and a first
upload succeeded, a second upload of the same path is recognized as
already ingested: it returns success and changes nothing durable (only the
id generator advances, for the fresh ObjectId drawn on entry); the first
upload left exactly one matching document record, and all chunk rows it
added carry the one fresh ingestion id. -/
theorem c3_idempotent_reupload (env : Env) (a : Agent) (db : DB)
    (path : String) (cs co cs2 co2 : Nat)
    (hfresh : db.documents.any (docKey a.company_id path) = false)
    (hsucc : (upload_file env a db path cs co).1 = true) :
    (upload_file env (upload_file env a db path cs co).2.1
      (upload_file env a db path cs co).2.2 path cs2 co2).1 = true ∧
    (upload_file env (upload_file env a db path cs co).2.1
      (upload_file env a db path cs co).2.2 path cs2 co2).2.2 =
      { (upload_file env a db path cs co).2.2 with
        nextId := (upload_file env a db path cs co).2.2.nextId + 1 } ∧
    (upload_file env a db path cs co).2.2.documents.countP
      (docKey a.company_id path) = 1 ∧
    (∃ newChunks,
      (upload_file env a db path cs co).2.2.embeddings =
        db.embeddings ++ newChunks ∧
      ∀ e ∈ newChunks, e.company_id = a.company_id ∧
        e.document_id = db.nextId) := by
  have hcond : (db.documents.any (docKey a.company_id path) &&
      (db.chroma a.company_id).isSome) = false := by
    rw [hfresh]
    rfl
  obtain ⟨hl, hp, hc, hr⟩ :=
    upload_success_conditions env a db path cs co hcond hsucc
  rw [upload_file_happy env a db path cs co hcond hl hp hc hr]
  dsimp only
  unfold upload_file
  dsimp only [uploadHappyAgent]
  rw [happyDB_any env db a.company_id path cs co,
      happyDB_chroma_isSome env db a.company_id path cs co, hr]
  exact ⟨rfl, rfl, happyDB_countP env db a.company_id path cs co hfresh,
    happyDB_embeddings env db a.company_id path cs co⟩

/-- C3 witness: tenant 7 uploads `kb.pdf` twice into the empty database. -/
theorem c3_idempotent_reupload_witness :
    (upload_file env0 c2Upload.2.1 c2Upload.2.2 ("kb.pdf") 1000 200).1 =
      true ∧
    (upload_file env0 c2Upload.2.1 c2Upload.2.2 ("kb.pdf") 1000 200).2.2 =
      { c2Upload.2.2 with nextId := c2Upload.2.2.nextId + 1 } ∧
    c2Upload.2.2.documents.countP (docKey agent7.company_id ("kb.pdf"))
      = 1 ∧
    (∃ newChunks,
      c2Upload.2.2.embeddings = dbEmpty.embeddings ++ newChunks ∧
      ∀ e ∈ newChunks, e.company_id = agent7.company_id ∧
        e.document_id = dbEmpty.nextId) :=
  c3_idempotent_reupload env0 agent7 dbEmpty ("kb.pdf") 1000 200 1000 200
    (by decide) (by decide)

/-! ## C8 -/

/-- A successful upload always installs the RAG chain and records whether
the reranker setup fell back. -/
theorem upload_true_agent (env : Env) (a : Agent) (db : DB) (path : String)
    (cs co : Nat) (hsucc : (upload_file env a db path cs co).1 = true) :
    (upload_file env a db path cs co).2.1.rag_chain = true ∧
    (upload_file env a db path cs co).2.1.fallback =
      env.rerankerSetupFails := by
  unfold upload_file at hsucc ⊢
  dsimp only at hsucc ⊢
  cases h0 : (db.documents.any (docKey a.company_id path) &&
      (db.chroma a.company_id).isSome) with
  | true =>
    rw [h0] at hsucc
    cases h4 : env.ragInitFails with
    | true => rw [h4] at hsucc; simp at hsucc
    | false => rw [h4] at hsucc; exact ⟨rfl, rfl⟩
  | false =>
    rw [h0] at hsucc
    cases h1 : env.loadFails path with
    | true => rw [h1] at hsucc; simp at hsucc
    | false =>
      rw [h1] at hsucc
      cases h2 : (env.pages path).isEmpty with
      | true => rw [h2] at hsucc; simp at hsucc
      | false =>
        rw [h2] at hsucc
        cases h3 : (env.chromaBuildFails ||
            (env.split cs co (env.pages path)).isEmpty) with
        | true => rw [h3] at hsucc; simp at hsucc
        | false =>
          rw [h3] at hsucc
          cases h4 : env.ragInitFails with
          | true => rw [h4] at hsucc; simp at hsucc
          | false => rw [h4] at hsucc; exact ⟨rfl, rfl⟩

/-- An environment whose reranker raises at query time but not at setup. -/
def env8 : Env := { env0 with rerankQueryFails := true }

/-- An agent with a live chain whose retriever uses the reranker. -/
def agent8 : Agent :=
  { company_id := 3, conversation_history := [], response_times := [],
    vector_store := true, rag_chain := true, fallback := false }

/-- A database holding two chunks in the tenant-3 Chroma directory. -/
def db8 : DB :=
  { documents := [], embeddings := [], conversations := [],
    chroma := fun x => if x = 3 then some [("chunk one"), ("chunk two")]
      else none,
    nextId := 0 }

/-- C8 counterexample: when the reranker raises during a query (rather
than at retriever setup), `ask_question` does not return an answer derived
from the similarity order - it returns the generic apology produced by the
`except` handler, so the claim as stated is false. -/
theorem c8_query_rerank_failure_counterexample :
    ¬ ((ask_question env8 agent8 db8 ("q")).1 =
        simFallbackOutput env8 agent8 db8 ("q")) ∧
    (ask_question env8 agent8 db8 ("q")).1 =
      askErrHead ++ env8.llmMsg := by
  decide

/-- C8 amended: (a) when the reranker is unavailable at retriever setup,
every question asked after a successful upload is answered from the top 5
chunks of the vector store own similarity order (non-empty whenever the
LLM never returns empty text); (b) when the reranker raises at query time
instead, `ask_question` returns the non-empty apology string rather than
raising or returning a similarity-derived answer. -/
theorem c8_reranker_degradation :
    (∀ (env : Env) (a : Agent) (db : DB) (path : String) (cs co : Nat)
       (q : String), env.rerankerSetupFails = true → env.llmFails = false →
       (upload_file env a db path cs co).1 = true →
       (ask_question env (upload_file env a db path cs co).2.1
         (upload_file env a db path cs co).2.2 q).1 =
         simFallbackOutput env (upload_file env a db path cs co).2.1
           (upload_file env a db path cs co).2.2 q ∧
       ((∀ p, env.llm p ≠ "") →
         (ask_question env (upload_file env a db path cs co).2.1
           (upload_file env a db path cs co).2.2 q).1 ≠ "")) ∧
    (∀ (env : Env) (a : Agent) (db : DB) (q : String),
       a.rag_chain = true → a.fallback = false →
       env.rerankQueryFails = true →
       (ask_question env a db q).1 = askErrHead ++ env.llmMsg ∧
       (ask_question env a db q).1 ≠ "") := by
  constructor
  · intro env a db path cs co q hsetup hllm hsucc
    obtain ⟨hrag, hfb⟩ := upload_true_agent env a db path cs co hsucc
    rw [hsetup] at hfb
    have hok : chainRaises env (upload_file env a db path cs co).2.1 =
        false := by
      unfold chainRaises
      rw [hfb, hllm]
      rfl
    obtain ⟨hout, -, -, -⟩ := ask_success_step env
      (upload_file env a db path cs co).2.1
      (upload_file env a db path cs co).2.2 q hrag hok
    have hsim : chainOutput env (upload_file env a db path cs co).2.1
        (upload_file env a db path cs co).2.2 q =
        simFallbackOutput env (upload_file env a db path cs co).2.1
          (upload_file env a db path cs co).2.2 q := by
      unfold chainOutput simFallbackOutput retrieveDocs
      rw [hfb]
      rfl
    refine ⟨by rw [hout, hsim], ?_⟩
    intro hne
    rw [hout, hsim]
    exact hne _
  · intro env a db q hrag hfb hrq
    have hcr : chainRaises env a = true := by
      unfold chainRaises
      rw [hfb, hrq]
      rfl
    have hval : (ask_question env a db q).1 = askErrHead ++ env.llmMsg :=
      by
      unfold ask_question
      rw [hrag, hcr]
      rfl
    refine ⟨hval, ?_⟩
    rw [hval]
    intro hbad
    have hlen := congrArg String.length hbad
    rw [String.length_append] at hlen
    have hpre : 0 < askErrHead.length := by decide
    simp only [String.length_empty] at hlen
    omega

/-- An environment whose reranker construction raises at setup time. -/
def envSetupFail : Env := { env0 with rerankerSetupFails := true }

/-- C8 witness: part (a) at a concrete upload with failed reranker setup;
part (b) at a concrete query-time reranker failure. -/
theorem c8_reranker_degradation_witness :
    ((ask_question envSetupFail
        (upload_file envSetupFail agent7 dbEmpty ("kb.pdf") 1000 200).2.1
        (upload_file envSetupFail agent7 dbEmpty ("kb.pdf") 1000 200).2.2
        ("q")).1 =
      simFallbackOutput envSetupFail
        (upload_file envSetupFail agent7 dbEmpty ("kb.pdf") 1000 200).2.1
        (upload_file envSetupFail agent7 dbEmpty ("kb.pdf") 1000 200).2.2
        ("q") ∧
     ((∀ p, envSetupFail.llm p ≠ "") →
       (ask_question envSetupFail
         (upload_file envSetupFail agent7 dbEmpty ("kb.pdf") 1000 200).2.1
         (upload_file envSetupFail agent7 dbEmpty ("kb.pdf") 1000 200).2.2
         ("q")).1 ≠ "")) ∧
    ((ask_question env8 agent8 db8 ("q")).1 =
       askErrHead ++ env8.llmMsg ∧
     (ask_question env8 agent8 db8 ("q")).1 ≠ "") :=
  ⟨c8_reranker_degradation.1 envSetupFail agent7 dbEmpty ("kb.pdf") 1000
     200 ("q") (by decide) (by decide) (by decide),
   c8_reranker_degradation.2 env8 agent8 db8 ("q") (by decide) (by decide)
     (by decide)⟩

/-! ## C1 -/

/-- Rewriting the first `p`-match with a `q`-invisible rewrite does not
change the `q`-filter, when `p`-matches are never `q`-matches. -/
theorem filter_updateFirst_other (p q : α → Bool) (f : α → α)
    (hpq : ∀ x, p x = true → q x = false)
    (hf : ∀ x, q (f x) = q x) :
    ∀ l : List α, (updateFirst p f l).filter q = l.filter q := by
  intro l
  induction l with
  | nil => rfl
  | cons x xs ih =>
    cases hx : p x with
    | true =>
      have hqx : q x = false := hpq x hx
      simp [updateFirst, hx, List.filter_cons, hf, hqx]
    | false =>
      simp only [updateFirst, hx, Bool.false_eq_true, if_false,
        List.filter_cons, ih]

/-- Erasing the first `p`-match does not change the `q`-filter, when
`p`-matches are never `q`-matches. -/
theorem filter_eraseP_other (p q : α → Bool)
    (hpq : ∀ x, p x = true → q x = false) :
    ∀ l : List α, (l.eraseP p).filter q = l.filter q := by
  intro l
  induction l with
  | nil => rfl
  | cons x xs ih =>
    cases hx : p x with
    | true =>
      have hqx : q x = false := hpq x hx
      simp [List.eraseP_cons, hx, List.filter_cons, hqx]
    | false =>
      simp only [List.eraseP_cons, hx, cond_false, List.filter_cons, ih]

/-- Pre-filtering by a predicate that holds on every `q`-match does not
change the `q`-filter. -/
theorem filter_filter_super (q r : α → Bool)
    (him : ∀ x, q x = true → r x = true) (l : List α) :
    (l.filter r).filter q = l.filter q := by
  induction l with
  | nil => rfl
  | cons x xs ih =>
    cases hr : r x with
    | true =>
      simp only [List.filter_cons, hr, if_true, ih]
    | false =>
      have hq : q x = false := by
        cases hq : q x with
        | true => rw [him x hq] at hr; exact absurd hr (by simp)
        | false => rfl
      simp only [List.filter_cons, hr, Bool.false_eq_true, if_false, hq, ih]

/-- `TenantEq` is reflexive. -/
theorem tenantEq_refl (a : Nat) (db : DB) : TenantEq a db db :=
  ⟨rfl, rfl, rfl, rfl⟩

/-- `TenantEq` is transitive. -/
theorem tenantEq_trans {a : Nat} {db1 db2 db3 : DB}
    (h1 : TenantEq a db1 db2) (h2 : TenantEq a db2 db3) :
    TenantEq a db1 db3 :=
  ⟨h1.1.trans h2.1, h1.2.1.trans h2.2.1, h1.2.2.1.trans h2.2.2.1,
   h1.2.2.2.trans h2.2.2.2⟩

/-- A `docKey c path` match never belongs to a tenant `a ≠ c`. -/
theorem docKey_not_other (c : Nat) (path : String) (a : Nat) (hne : a ≠ c) :
    ∀ d : DocRecord, docKey c path d = true → (d.company_id == a) = false :=
  by
  intro d hd
  simp only [docKey, Bool.and_eq_true, beq_iff_eq] at hd
  rw [hd.1]
  exact beq_eq_false_iff_ne.mpr (fun h => hne h.symm)

/-- An upsert of a tenant-`c` document record leaves every other tenant
state untouched. -/
theorem tenantEq_upsert (db : DB) (c : Nat) (path : String)
    (f : DocRecord → DocRecord) (mk : Nat → DocRecord) (a : Nat)
    (hne : a ≠ c) (hf : ∀ d, (f d).company_id = d.company_id)
    (hmk : ∀ i, (mk i).company_id = c) :
    TenantEq a db (upsertDocByPath db c path f mk) := by
  unfold upsertDocByPath
  split
  · refine ⟨?_, rfl, rfl, rfl⟩
    unfold docsFor
    exact (filter_updateFirst_other (docKey c path)
      (fun d => d.company_id == a) f (docKey_not_other c path a hne)
      (fun x => by
        show ((f x).company_id == a) = (x.company_id == a)
        rw [hf x]) db.documents).symm
  · refine ⟨?_, rfl, rfl, rfl⟩
    unfold docsFor
    rw [List.filter_append]
    have hnew : ((mk db.nextId).company_id == a) = false := by
      rw [hmk]
      exact beq_eq_false_iff_ne.mpr (fun h => hne h.symm)
    simp [hnew]

/-- The `processing` upsert is invisible to other tenants. -/
theorem tenantEq_processingUpsert (db : DB) (c : Nat) (path : String)
    (a : Nat) (hne : a ≠ c) :
    TenantEq a db (processingUpsert db c path) :=
  tenantEq_upsert db c path _ _ a hne (fun _ => rfl) (fun _ => rfl)

/-- The `failed` upsert is invisible to other tenants. -/
theorem tenantEq_failedUpsert (db : DB) (c : Nat) (path msg : String)
    (a : Nat) (hne : a ≠ c) :
    TenantEq a db (failedUpsert db c path msg) :=
  tenantEq_upsert db c path _ _ a hne (fun _ => rfl) (fun _ => rfl)

/-- The no-content `failed` update is invisible to other tenants. -/
theorem tenantEq_noContentUpdate (db : DB) (c : Nat) (path : String)
    (a : Nat) (hne : a ≠ c) :
    TenantEq a db (noContentUpdate db c path) := by
  refine ⟨?_, rfl, rfl, rfl⟩
  unfold noContentUpdate docsFor
  dsimp only
  refine (filter_updateFirst_other (docKey c path)
    (fun d => d.company_id == a) _ (docKey_not_other c path a hne)
    ?_ db.documents).symm
  intro x
  rfl

/-- The completion update is invisible to other tenants. -/
theorem tenantEq_completedUpdate (db : DB) (c : Nat) (path : String)
    (np nc cs co : Nat) (a : Nat) (hne : a ≠ c) :
    TenantEq a db (completedUpdate db c path np nc cs co) := by
  refine ⟨?_, rfl, rfl, rfl⟩
  unfold completedUpdate docsFor
  dsimp only
  refine (filter_updateFirst_other (docKey c path)
    (fun d => d.company_id == a) _ (docKey_not_other c path a hne)
    ?_ db.documents).symm
  intro x
  rfl

/-- Adding chunks to the tenant-`c` Chroma directory is invisible to other
tenants. -/
theorem tenantEq_addChroma (db : DB) (c : Nat) (docs : List String)
    (a : Nat) (hne : a ≠ c) :
    TenantEq a db (addChroma db c docs) := by
  refine ⟨rfl, rfl, rfl, ?_⟩
  unfold addChroma
  dsimp only
  rw [if_neg hne]

/-- Inserting tenant-`c` chunk rows is invisible to other tenants. -/
theorem tenantEq_addEmbeddings (db : DB) (c did : Nat)
    (docs : List String) (a : Nat) (hne : a ≠ c) :
    TenantEq a db (addEmbeddings db c did docs) := by
  refine ⟨rfl, ?_, rfl, rfl⟩
  unfold addEmbeddings embsFor
  dsimp only
  rw [List.filter_append]
  have hnil : (docs.enum.map (fun p =>
      ({ company_id := c, document_id := did, chunk_index := p.1,
         chunk_text := p.2 } : EmbRecord))).filter
      (fun e => e.company_id == a) = [] := by
    rw [List.filter_eq_nil_iff]
    intro e he
    simp only [List.mem_map] at he
    obtain ⟨p, hp, rfl⟩ := he
    intro hh
    exact hne (beq_iff_eq.mp hh).symm
  rw [hnil, List.append_nil]

/-- Saving the tenant-`c` conversation row is invisible to other
tenants. -/
theorem tenantEq_save (db : DB) (c : Nat) (h : List (String × String))
    (a : Nat) (hne : a ≠ c) :
    TenantEq a db (saveConversation db c h) := by
  have hpq : ∀ v : ConvRecord, (v.company_id == c) = true →
      (v.company_id == a) = false := by
    intro v hv
    have hvc : v.company_id = c := beq_iff_eq.mp hv
    rw [hvc]
    exact beq_eq_false_iff_ne.mpr (Ne.symm hne)
  unfold saveConversation
  split
  · refine ⟨rfl, rfl, ?_, rfl⟩
    unfold convsFor
    dsimp only
    refine (filter_updateFirst_other (fun v => v.company_id == c)
      (fun v => v.company_id == a) _ hpq ?_ db.conversations).symm
    intro x
    rfl
  · refine ⟨rfl, rfl, ?_, rfl⟩
    unfold convsFor
    dsimp only
    rw [List.filter_append]
    have hnil : ([({ company_id := c, history := h } : ConvRecord)]).filter
        (fun v => v.company_id == a) = [] := by
      simp only [List.filter_cons, List.filter_nil]
      rw [if_neg]
      intro hh
      exact absurd (beq_iff_eq.mp hh) (fun he => hne he.symm)
    rw [hnil, List.append_nil]

/-- Replacing the tenant-`c` Chroma directory is invisible to other
tenants. -/
theorem tenantEq_chromaSet (db : DB) (c : Nat)
    (v : Option (List String)) (a : Nat) (hne : a ≠ c) :
    TenantEq a db
      { db with chroma := (fun x => if x = c then v else db.chroma x) } := by
  refine ⟨rfl, rfl, rfl, ?_⟩
  dsimp only
  rw [if_neg hne]

/-- `upload_file` for one tenant never touches another tenant state, in
any of its branches. -/
theorem upload_tenant_frame (env : Env) (agent : Agent) (db : DB)
    (path : String) (cs co : Nat) (a : Nat)
    (hne : a ≠ agent.company_id) :
    TenantEq a db (upload_file env agent db path cs co).2.2 := by
  have hdb0 : TenantEq a db ({ db with nextId := db.nextId + 1 }) :=
    ⟨rfl, rfl, rfl, rfl⟩
  unfold upload_file
  dsimp only
  split
  · split
    · exact tenantEq_trans hdb0
        (tenantEq_failedUpsert _ _ _ _ a hne)
    · exact hdb0
  · split
    · exact tenantEq_trans hdb0 (tenantEq_trans
        (tenantEq_processingUpsert _ _ _ a hne)
        (tenantEq_failedUpsert _ _ _ _ a hne))
    · split
      · exact tenantEq_trans hdb0 (tenantEq_trans
          (tenantEq_processingUpsert _ _ _ a hne)
          (tenantEq_noContentUpdate _ _ _ a hne))
      · split
        · exact tenantEq_trans hdb0 (tenantEq_trans
            (tenantEq_processingUpsert _ _ _ a hne)
            (tenantEq_failedUpsert _ _ _ _ a hne))
        · split
          · split
            · exact tenantEq_trans hdb0 (tenantEq_trans
                (tenantEq_processingUpsert _ _ _ a hne)
                (tenantEq_trans (tenantEq_addChroma _ _ _ a hne)
                  (tenantEq_trans (tenantEq_completedUpdate _ _ _ _ _ _ _
                    a hne) (tenantEq_failedUpsert _ _ _ _ a hne))))
            · exact tenantEq_trans hdb0 (tenantEq_trans
                (tenantEq_processingUpsert _ _ _ a hne)
                (tenantEq_trans (tenantEq_addChroma _ _ _ a hne)
                  (tenantEq_trans (tenantEq_addEmbeddings _ _ _ _ a hne)
                    (tenantEq_trans (tenantEq_completedUpdate _ _ _ _ _ _
                      _ a hne) (tenantEq_failedUpsert _ _ _ _ a hne)))))
          · split
            · exact tenantEq_trans hdb0 (tenantEq_trans
                (tenantEq_processingUpsert _ _ _ a hne)
                (tenantEq_trans (tenantEq_addChroma _ _ _ a hne)
                  (tenantEq_completedUpdate _ _ _ _ _ _ _ a hne)))
            · exact tenantEq_trans hdb0 (tenantEq_trans
                (tenantEq_processingUpsert _ _ _ a hne)
                (tenantEq_trans (tenantEq_addChroma _ _ _ a hne)
                  (tenantEq_trans (tenantEq_addEmbeddings _ _ _ _ a hne)
                    (tenantEq_completedUpdate _ _ _ _ _ _ _ a hne))))

/-- `ask_question` for one tenant never touches another tenant state. -/
theorem ask_tenant_frame (env : Env) (agent : Agent) (db : DB)
    (q : String) (a : Nat) (hne : a ≠ agent.company_id) :
    TenantEq a db (ask_question env agent db q).2.2 := by
  unfold ask_question
  split
  · exact tenantEq_refl a db
  · split
    · exact tenantEq_refl a db
    · exact tenantEq_save db agent.company_id _ a hne

/-- `delete_document` for one tenant never touches another tenant state,
in any of its branches. -/
theorem delete_tenant_frame (env : Env) (agent : Agent) (db : DB)
    (fn : String) (a : Nat) (hne : a ≠ agent.company_id) :
    TenantEq a db (delete_document env agent db fn).2.2 := by
  have hpq : ∀ d : DocRecord,
      (d.company_id == agent.company_id && d.file_name == fn) = true →
      (d.company_id == a) = false := by
    intro d hd
    simp only [Bool.and_eq_true, beq_iff_eq] at hd
    rw [hd.1]
    exact beq_eq_false_iff_ne.mpr (Ne.symm hne)
  unfold delete_document
  dsimp only
  split
  · exact tenantEq_refl a db
  · next record heq =>
    have h2 : TenantEq a db
        { db with
          embeddings := (db.embeddings.filter (fun e =>
            !(e.company_id == agent.company_id &&
              e.document_id == record.recId))),
          documents := ((db.embeddings.filter (fun e =>
            !(e.company_id == agent.company_id &&
              e.document_id == record.recId))) |> fun _ =>
            db.documents.eraseP (fun d =>
              d.company_id == agent.company_id && d.file_name == fn)) } := by
      refine ⟨?_, ?_, rfl, rfl⟩
      · unfold docsFor
        dsimp only
        exact (filter_eraseP_other _ (fun d => d.company_id == a) hpq
          db.documents).symm
      · unfold embsFor
        dsimp only
        refine (filter_filter_super (fun e => e.company_id == a) _ ?_
          db.embeddings).symm
        intro x hx
        have hxa : x.company_id = a := beq_iff_eq.mp hx
        have hxc : (x.company_id == agent.company_id) = false := by
          rw [hxa]
          exact beq_eq_false_iff_ne.mpr hne
        rw [hxc]
        rfl
    split
    · exact tenantEq_trans h2
        (tenantEq_chromaSet _ agent.company_id none a hne)
    · split
      · exact tenantEq_trans h2
          (tenantEq_chromaSet _ agent.company_id none a hne)
      · split
        · exact tenantEq_trans h2
            (tenantEq_chromaSet _ agent.company_id none a hne)
        · exact tenantEq_trans h2
            (tenantEq_chromaSet _ agent.company_id _ a hne)

/-- `clear_conversation_history` for one tenant never touches another
tenant state. -/
theorem clear_tenant_frame (agent : Agent) (db : DB) (a : Nat)
    (hne : a ≠ agent.company_id) :
    TenantEq a db (clear_conversation_history agent db).2 :=
  tenantEq_save db agent.company_id [] a hne

/-- `get_company_documents` returns views of the calling tenant own
records only. -/
theorem get_docs_own (agent : Agent) (db : DB) :
    ∀ v ∈ get_company_documents agent db, ∃ d, d ∈ db.documents ∧
      d.company_id = agent.company_id ∧ v = docViewOf d := by
  intro v hv
  unfold get_company_documents at hv
  simp only [List.mem_map, List.mem_filter] at hv
  obtain ⟨d, ⟨hd, hq⟩, rfl⟩ := hv
  exact ⟨d, hd, beq_iff_eq.mp hq, rfl⟩

/-- Retrieval reads only the calling tenant Chroma directory: whenever the
similarity search and the reranker return chunks drawn from their input
(the collaborator contract of a search over a store), every retrieved
chunk is stored in the tenant own directory. -/
theorem retrieve_own (env : Env) (agent : Agent) (db : DB) (q : String)
    (hsim : ∀ s l, ∀ x ∈ env.simOrder s l, x ∈ l)
    (hrr : ∀ s l, ∀ x ∈ env.rerank s l, x ∈ l) :
    ∀ x ∈ retrieveDocs env agent db q,
      x ∈ (db.chroma agent.company_id).getD [] := by
  intro x hx
  unfold retrieveDocs at hx
  dsimp only at hx
  split at hx
  · exact hsim q _ x (List.mem_of_mem_take hx)
  · have h1 := hrr q _ x (List.mem_of_mem_take hx)
    exact hsim q _ x (List.mem_of_mem_take h1)

/-- The history loaded at agent construction comes only from the tenant
own conversation row (or is empty). -/
theorem mkAgent_history_own (env : Env) (c : Nat) (db : DB) :
    (mkAgent env c db).conversation_history = [] ∨
    ∃ v, v ∈ db.conversations ∧ v.company_id = c ∧
      (mkAgent env c db).conversation_history = lastN 10 v.history := by
  unfold mkAgent
  dsimp only
  have hload : loadedHistory db c = [] ∨
      ∃ v, v ∈ db.conversations ∧ v.company_id = c ∧
        loadedHistory db c = lastN 10 v.history := by
    unfold loadedHistory
    cases hf : db.conversations.find? (fun v => v.company_id == c) with
    | none => exact Or.inl rfl
    | some v =>
      have hp := List.find?_some hf
      exact Or.inr ⟨v, List.mem_of_find?_eq_some hf,
        beq_iff_eq.mp hp, rfl⟩
  split
  · split
    · split
      · exact Or.inl rfl
      · exact hload
    · exact hload
  · exact Or.inl rfl

/-- C1: tenant isolation.  For any tenant `a` different from the calling
agent tenant: every state-changing operation (`upload_file`,
`ask_question`, `delete_document`, `clear_conversation_history`) leaves
all of tenant `a` durable state - documents, chunk rows, conversations and
Chroma directory - unchanged; `get_company_documents` returns only views
of the calling tenant records; retrieval reads only the calling tenant
Chroma directory (under the contract that similarity search and reranker
return chunks from their input store); and the conversation history loaded
at construction comes only from the constructed tenant own row.  Together:
data created for one tenant is never returned by a read for another. -/
theorem c1_tenant_isolation (env : Env) (agent : Agent) (db : DB)
    (a : Nat) (path q fn : String) (cs co : Nat)
    (hne : a ≠ agent.company_id)
    (hsim : ∀ s l, ∀ x ∈ env.simOrder s l, x ∈ l)
    (hrr : ∀ s l, ∀ x ∈ env.rerank s l, x ∈ l) :
    TenantEq a db (upload_file env agent db path cs co).2.2 ∧
    TenantEq a db (ask_question env agent db q).2.2 ∧
    TenantEq a db (delete_document env agent db fn).2.2 ∧
    TenantEq a db (clear_conversation_history agent db).2 ∧
    (∀ v ∈ get_company_documents agent db, ∃ d, d ∈ db.documents ∧
      d.company_id = agent.company_id ∧ v = docViewOf d) ∧
    (∀ x ∈ retrieveDocs env agent db q,
      x ∈ (db.chroma agent.company_id).getD []) ∧
    ((mkAgent env agent.company_id db).conversation_history = [] ∨
     ∃ v, v ∈ db.conversations ∧ v.company_id = agent.company_id ∧
       (mkAgent env agent.company_id db).conversation_history =
         lastN 10 v.history) :=
  ⟨upload_tenant_frame env agent db path cs co a hne,
   ask_tenant_frame env agent db q a hne,
   delete_tenant_frame env agent db fn a hne,
   clear_tenant_frame agent db a hne,
   get_docs_own agent db,
   retrieve_own env agent db q hsim hrr,
   mkAgent_history_own env agent.company_id db⟩

/-- C1 witness: tenant 7 (after its upload) operating while tenant 5 state
is observed, with the identity similarity order and reranker (which
trivially return chunks from their input). -/
theorem c1_tenant_isolation_witness :
    TenantEq 5 c2Upload.2.2
      (upload_file env0 c2Upload.2.1 c2Upload.2.2 ("kb.pdf") 1000
        200).2.2 ∧
    TenantEq 5 c2Upload.2.2
      (ask_question env0 c2Upload.2.1 c2Upload.2.2 ("q")).2.2 ∧
    TenantEq 5 c2Upload.2.2
      (delete_document env0 c2Upload.2.1 c2Upload.2.2 ("kb.pdf")).2.2 ∧
    TenantEq 5 c2Upload.2.2
      (clear_conversation_history c2Upload.2.1 c2Upload.2.2).2 ∧
    (∀ v ∈ get_company_documents c2Upload.2.1 c2Upload.2.2, ∃ d,
      d ∈ c2Upload.2.2.documents ∧
      d.company_id = c2Upload.2.1.company_id ∧ v = docViewOf d) ∧
    (∀ x ∈ retrieveDocs env0 c2Upload.2.1 c2Upload.2.2 ("q"),
      x ∈ (c2Upload.2.2.chroma c2Upload.2.1.company_id).getD []) ∧
    ((mkAgent env0 c2Upload.2.1.company_id
        c2Upload.2.2).conversation_history = [] ∨
     ∃ v, v ∈ c2Upload.2.2.conversations ∧
       v.company_id = c2Upload.2.1.company_id ∧
       (mkAgent env0 c2Upload.2.1.company_id
         c2Upload.2.2).conversation_history = lastN 10 v.history) :=
  c1_tenant_isolation env0 c2Upload.2.1 c2Upload.2.2 5 ("kb.pdf") ("q")
    ("kb.pdf") 1000 200 (by decide) (fun s l x hx => hx)
    (fun s l x hx => hx)

/-- C4 counterexample: the original claim also covers exceptions raised in
the durable persist step, and there it fails on the code.  With every
other collaborator healthy and the Mongo embeddings write raising
(`envMongoFail`), tenant 7 uploads `kb.pdf`: a persist-step exception is
raised, yet `upload_file` returns `True` and marks the record `completed`
instead of transitioning it to `failed` and returning `False` - the
exception is swallowed inside `_store_embeddings_in_mongodb`. -/
theorem c4_persist_failure_counterexample :
    envMongoFail.mongoInsertFails = true ∧
    (upload_file envMongoFail agent7 dbEmpty ("kb.pdf") 1000 200).1 =
      true ∧
    docStatus (upload_file envMongoFail agent7 dbEmpty ("kb.pdf") 1000
      200).2.2 agent7.company_id ("kb.pdf") = some ("completed") := by
  decide
